import Mathlib

/-
Verification of the live-server-lsp repository (src/lsp.rs, src/dashboard.rs)
against its natural-language specification.

Text documents are embedded as `List Char`, with byte offsets computed from
`Char.utf8Size`, matching Rust `&str` semantics.  Machine-integer arithmetic
that can wrap (`u32`, `u16`, `usize`) is made explicit with `% 2^w`; a Rust
`panic` (an `unwrap` of `None`, an out-of-bounds slice) is represented by an
`Option` result of `none`.  Network and OS side effects (HTTP sends, TCP
binds, the browser launch) are abstracted as explicit parameters or outcome
values, since their decision logic is all that the source contains.
-/

/-- Two to the 32nd, the modulus of Rust `u32` arithmetic in release builds. -/
def u32Mod : Nat := 4294967296

/-- Two to the 64th, the modulus of Rust `usize` arithmetic on 64-bit targets. -/
def u64Mod : Nat := 18446744073709551616

/-- Two to the 16th, the modulus of Rust `u16` arithmetic. -/
def u16Mod : Nat := 65536

/-- Wrapping of a natural number into `u32` range. -/
def wrap32 (n : Nat) : Nat := n % u32Mod

/-- Wrapping of a natural number into `usize` range (64-bit). -/
def wrap64 (n : Nat) : Nat := n % u64Mod

/-- Wrapping of a natural number into `u16` range. -/
def wrap16 (n : Nat) : Nat := n % u16Mod

/-- Iterator access `iter.nth n`: the n-th element of a list, if any. -/
def nthOpt {α : Type} : List α → Nat → Option α
  | [], _ => none
  | a :: _, 0 => some a
  | _ :: as, n + 1 => nthOpt as n

/-- Rust `str::char_indices` starting from byte offset `i`: each scalar paired
with its byte offset. -/
def charIndicesFrom (i : Nat) : List Char → List (Nat × Char)
  | [] => []
  | c :: cs => (i, c) :: charIndicesFrom (i + c.utf8Size) cs

/-- Rust `str::char_indices`: scalars of the text paired with byte offsets. -/
def charIndices (s : List Char) : List (Nat × Char) := charIndicesFrom 0 s

/-- Rust `str::len`: the UTF-8 byte length of the text. -/
def byteLen (s : List Char) : Nat := (s.map Char.utf8Size).sum

/-- Loop body of `index_of_first_char_in_line` (src/lsp.rs lines 416-435):
walks `char_indices`, counting newlines in `currentLine` (a `u32`, so the
increment wraps) and remembering in `index` the byte offset of the last scalar
visited.  On a newline that reaches the requested line, returns the offset
just after it.  After the loop the source compares `current_line == line - 1`
on `u32`, which for `line = 0` wraps to `2^32 - 1`. -/
def iofl (line : Nat) : List (Nat × Char) → Nat → Nat → Option Nat
  | [], currentLine, index =>
      if currentLine = wrap32 (line + 4294967295) then some (index + 1) else none
  | (i, c) :: rest, currentLine, index =>
      if c == '\n' then
        if wrap32 (currentLine + 1) = line then some (i + 1)
        else iofl line rest (wrap32 (currentLine + 1)) i
      else iofl line rest currentLine i

/-- Embedding of `index_of_first_char_in_line` (src/lsp.rs lines 416-435). -/
def index_of_first_char_in_line (s : List Char) (line : Nat) : Option Nat :=
  iofl line (charIndices s) 0 0

/-- Embedding of `get_byte_index_from_position` (src/lsp.rs lines 404-414).
The position is `(line, ch)` with both fields `u32` in the source.  The source
computes `line_start` (defaulting to `s.len()` when the helper returns `None`),
adds the character count, and when that reaches the byte length it evaluates
`s.char_indices().nth(s.len() - 1).unwrap()` — a `usize` subtraction that wraps
at zero, and an `unwrap` that panics (`none` here) when the element is absent. -/
def get_byte_index_from_position (s : List Char) (line ch : Nat) : Option Nat :=
  let lineStart := (index_of_first_char_in_line s line).getD (byteLen s)
  let charIndex := lineStart + ch
  if charIndex ≥ byteLen s then
    (nthOpt (charIndices s) (wrap64 (byteLen s + 18446744073709551615))).map Prod.fst
  else
    (nthOpt (charIndices s) charIndex).map Prod.fst

/-- Scalars covering exactly the first `n` bytes of the text; `none` when `n`
is not a scalar boundary or exceeds the text (a Rust slice panic). -/
def takeBytes : List Char → Nat → Option (List Char)
  | _, 0 => some []
  | [], _ + 1 => none
  | c :: cs, n + 1 =>
      if c.utf8Size ≤ n + 1 then (takeBytes cs (n + 1 - c.utf8Size)).map (fun l => c :: l)
      else none

/-- Scalars after the first `n` bytes of the text; `none` when `n` is not a
scalar boundary or exceeds the text (a Rust slice panic). -/
def dropBytes : List Char → Nat → Option (List Char)
  | l, 0 => some l
  | [], _ + 1 => none
  | c :: cs, n + 1 =>
      if c.utf8Size ≤ n + 1 then dropBytes cs (n + 1 - c.utf8Size)
      else none

/-- Rust `String::replace_range(start..stop, repl)`: replaces the byte span
`[start, stop)`; panics (`none`) when the bounds are out of order, off a scalar
boundary, or out of range. -/
def replaceRange (s : List Char) (start stop : Nat) (repl : List Char) :
    Option (List Char) :=
  if start ≤ stop then
    match takeBytes s start, dropBytes s stop with
    | some pre, some post => some (pre ++ repl ++ post)
    | _, _ => none
  else none

/-- One LSP content change: an optional `((startLine, startChar), (endLine,
endChar))` range plus replacement text, as consumed by `did_change`. -/
structure TextChange where
  range : Option ((Nat × Nat) × (Nat × Nat))
  text : List Char

/-- One iteration of the edit loop in `Backend::did_change` (src/lsp.rs lines
136-145): with a range, translate both positions and replace that byte span;
without one, replace the whole document. -/
def applyChange (file : List Char) (chg : TextChange) : Option (List Char) :=
  match chg.range with
  | some r => do
      let s ← get_byte_index_from_position file r.1.1 r.1.2
      let e ← get_byte_index_from_position file r.2.1 r.2.2
      replaceRange file s e chg.text
  | none => some chg.text

/-- The edit loop of `Backend::did_change`, applying changes in order; a panic
in any step (`none`) aborts the handler. -/
def foldChanges : List Char → List TextChange → Option (List Char)
  | file, [] => some file
  | file, chg :: rest =>
      match applyChange file chg with
      | some f2 => foldChanges f2 rest
      | none => none

/-- Per-workspace document cache (the `files: HashMap<String, String>` of
`LspFileService`), as a map from URI to content. -/
abbrev Cache : Type := List Char → Option (List Char)

/-- HashMap insert: binds key `k` to `v`. -/
def insertC (k v : List Char) (c : Cache) : Cache :=
  fun x => if x = k then some v else c x

/-- HashMap remove: unbinds key `k`. -/
def eraseC (k : List Char) (c : Cache) : Cache :=
  fun x => if x = k then none else c x

/-- Rust `str::strip_prefix`: drops `p` from the front of `s` when it is a
prefix, otherwise `none`. -/
def dropPre : List Char → List Char → Option (List Char)
  | [], s => some s
  | _ :: _, [] => none
  | p :: ps, c :: cs => if p = c then dropPre ps cs else none

/-- The `strip_prefix(..).unwrap_or(..)` idiom used throughout src/lsp.rs. -/
def stripOr (p s : List Char) : List Char := (dropPre p s).getD s

/-- The literal "file://" scheme stripped from document URIs. -/
def fileScheme : List Char := "file://".data

/-- Relative path computed by `Backend::update_file` (src/lsp.rs lines
365-368): the URI minus "file://", then minus the workspace root string. -/
def relOf (root uri : List Char) : List Char :=
  stripOr root (stripOr fileScheme uri)

/-- Embedding of `Backend::call_custom_function` (src/lsp.rs lines 373-384):
returns the reload signals it sends on the workspace signal channel.  The
source returns early, sending nothing, when the server is not eager and the
event is not a save; otherwise it sends the file path once. -/
def call_custom_function (eager saved : Bool) (filePath : List Char) :
    List (List Char) :=
  if !eager && !saved then [] else [filePath]

/-- Embedding of `Backend::did_open` (src/lsp.rs lines 107-118) for a document
routed to the workspace with root `root`: in eager mode the text is cached
under the URI; `update_file` then dispatches through `call_custom_function`
with `saved = false`.  Returns the new cache and the signals raised. -/
def did_open (eager : Bool) (root uri text : List Char) (c : Cache) :
    Cache × List (List Char) :=
  ((if eager then insertC uri text c else c),
    call_custom_function eager false (relOf root uri))

/-- Embedding of `Backend::did_save` (src/lsp.rs lines 120-127) for a routed
document: it only calls `update_file` with `saved = true`; returns the signals
raised. -/
def did_save (eager : Bool) (root uri : List Char) : List (List Char) :=
  call_custom_function eager true (relOf root uri)

/-- Embedding of `Backend::did_change` (src/lsp.rs lines 129-150) for a routed
document: when the URI is cached and the server is eager, the changes are
applied in order; `update_file` then dispatches with `saved = false`.  A panic
inside the edit loop (`none`) aborts the handler before any signal. -/
def did_change (eager : Bool) (root uri : List Char) (changes : List TextChange)
    (c : Cache) : Option (Cache × List (List Char)) :=
  let c2 : Option Cache :=
    match c uri with
    | some file =>
        if eager then (foldChanges file changes).map (fun f => insertC uri f c)
        else some c
    | none => some c
  c2.map (fun cc => (cc, call_custom_function eager false (relOf root uri)))

/-- Splitting of a character list on a separator, keeping empty segments. -/
def splitOnCharGo (sep : Char) : List Char → List Char → List (List Char)
  | [], acc => [acc.reverse]
  | c :: cs, acc =>
      if c = sep then acc.reverse :: splitOnCharGo sep cs []
      else splitOnCharGo sep cs (c :: acc)

/-- Path components of a path string: segments between '/' separators, with
empty segments dropped, modelling std `Path::components` for the plain
absolute paths this server handles ("." segments are not modelled). -/
def pathComponents (l : List Char) : List (List Char) :=
  (splitOnCharGo '/' l []).filter (fun seg => seg ≠ [])

/-- Component-wise list prefix test, modelling std `Path::starts_with`. -/
def isPre : List (List Char) → List (List Char) → Bool
  | [], _ => true
  | _ :: _, [] => false
  | a :: as, b :: bs => if a = b then isPre as bs else false

/-- Routing test of `Backend::get_workspace_for_file` (src/lsp.rs lines
350-359): the URI minus "file://" must start with the workspace root,
component-wise. -/
def wsMatches (root uri : List Char) : Bool :=
  isPre (pathComponents root) (pathComponents (stripOr fileScheme uri))

/-- Walk of the workspace table in iteration order: the first workspace whose
root matches the URI has the URI removed from its cache; the rest are left
untouched.  This is `get_workspace_for_file` followed by the `files.remove`
of `did_close`. -/
def closeGo (uri : List Char) : List (List Char × Cache) → List (List Char × Cache)
  | [] => []
  | (root, c) :: rest =>
      if wsMatches root uri then (root, eraseC uri c) :: rest
      else (root, c) :: closeGo uri rest

/-- Embedding of `Backend::did_close` (src/lsp.rs lines 334-341) over the
whole workspace table: removes the cache entry of the routed workspace and
raises no reload signal (the handler never calls `update_file`). -/
def did_close (uri : List Char) (wss : List (List Char × Cache)) :
    List (List Char × Cache) × List (List Char) :=
  (closeGo uri wss, [])

/-- Error values produced by `Backend::execute_command` through
`tower_lsp::jsonrpc::Error`. -/
inductive RpcError where
  | methodNotFound
  | invalidParams (msg : String)
deriving DecidableEq

/-- Embedding of `Backend::execute_command` (src/lsp.rs lines 152-201).  The
workspace table is read, never written, so it is returned unchanged; the
browser launch is abstracted as the `browserOk` outcome.  An unknown command
falls to the final `else` (`method_not_found`); a missing or non-string first
argument, or an argument naming no workspace key, yields `invalid_params`.
The source's second branch repeats the first condition and is dead code. -/
def execute_command (command : String) (firstArg : Option String)
    (workspaceRoots : List String) (browserOk : Bool) :
    List String × Except RpcError (Option Unit) :=
  (workspaceRoots,
    if command = "openProjectsWeb" then
      match firstArg with
      | some project =>
          if workspaceRoots.contains project then
            if browserOk then Except.ok none
            else Except.error (RpcError.invalidParams "failed to open browser")
          else Except.error (RpcError.invalidParams "URL argument invalid")
      | none => Except.error (RpcError.invalidParams "URL argument missing")
    else Except.error RpcError.methodNotFound)

/-- One broadcast event, the `Sent` struct of src/dashboard.rs lines 194-199. -/
structure Sent where
  added : Bool
  name : String
  url : String
deriving DecidableEq

/-- Registry effect of the `register` handler (src/dashboard.rs lines 50-75):
the candidate URL is probed by `check_server` (its outcome passed here as
`probeOk`); on success the `(name, url)` pair is pushed onto the server table
and one `added = true` event is sent; on failure nothing happens.  The source
performs no duplicate check before the push. -/
def register (probeOk : Bool) (name url : String)
    (servers : List (String × String)) : List (String × String) × List Sent :=
  if probeOk then (servers ++ [(name, url)], [⟨true, name, url⟩])
  else (servers, [])

/-- One cycle of the heartbeat loop in `start_server` (src/dashboard.rs lines
149-172): `snap` is the snapshot read under the lock, `ok` the probe outcome
per URL, and `cur` the table contents at reconciliation time.  The failed
snapshot entries are collected into `items`; the table retains entries not
contained in `items`, and one `added = false` event is sent per item. -/
def heartbeat_cycle (ok : String → Bool) (snap cur : List (String × String)) :
    List (String × String) × List Sent :=
  let items := snap.filter (fun v => !(ok v.2))
  (cur.filter (fun v => !(items.contains v)), items.map (fun v => ⟨false, v.1, v.2⟩))

/-- Outcome of one HTTP send: either the request failed to complete
(connection error or timeout) or some response with a status code arrived. -/
inductive HttpOutcome where
  | sendFailure
  | response (status : Nat)
deriving DecidableEq

/-- Embedding of `check_server` (src/dashboard.rs lines 189-192): the probe
sets the path to "/ping", posts, and returns `send().is_ok()`.  `reqwest`
reports `Ok` for any received response whatever its status code, and `Err`
only when the send itself fails, so the decision is exactly this match. -/
def check_server (outcome : HttpOutcome) : Bool :=
  match outcome with
  | HttpOutcome.sendFailure => false
  | HttpOutcome.response _ => true

/-- String form of a registry URL as stored by `register`: `Url::to_string`
for the default server "http://127.0.0.1" with a port set renders with a
trailing "/" path, as in the spec's own example "http://127.0.0.1:4001/". -/
def registryUrlString (port : Nat) : String :=
  "http://127.0.0.1:" ++ toString port ++ "/"

/-- Comparison string built by `get_port` (src/dashboard.rs line 124):
`format!("http://127.0.0.1:{}", port)` — with no trailing slash. -/
def portCmpString (port : Nat) : String :=
  "http://127.0.0.1:" ++ toString port

/-- The search loop of `get_port` (src/dashboard.rs lines 122-129): advance
while some snapshot entry's URL string equals `portCmpString port` or the
local bind probe fails; `canOpen` abstracts `can_open_port` (lines 107-110)
and the `u16` increment wraps.  Fuel bounds the loop for totality; `none`
means the search had not finished within the fuel. -/
def get_port_loop (data : List (String × String)) (canOpen : Nat → Bool) :
    Nat → Nat → Option Nat
  | 0, _ => none
  | fuel + 1, port =>
      if data.any (fun v => v.2 == portCmpString port) || !(canOpen port) then
        get_port_loop data canOpen fuel (wrap16 (port + 1))
      else some port

/-- Embedding of `get_port` (src/dashboard.rs lines 112-132): `data` is the
snapshot returned by the `/ports` request; the candidate starts at the base
port plus one. -/
def get_port (data : List (String × String)) (canOpen : Nat → Bool)
    (port : Nat) (fuel : Nat) : Option Nat :=
  get_port_loop data canOpen fuel (wrap16 (port + 1))

/-- Byte offset just after the nth newline of the text (n counted from 1),
scanning from byte offset `off`. -/
def afterNthNewline : List Char → Nat → Nat → Option Nat
  | [], _, _ => none
  | c :: cs, off, k =>
      if c = '\n' then
        if k = 1 then some (off + c.utf8Size)
        else afterNthNewline cs (off + c.utf8Size) (k - 1)
      else afterNthNewline cs (off + c.utf8Size) k

/-- Byte offset of the last scalar of the text, if any. -/
def lastScalarOffset (s : List Char) : Option Nat :=
  ((charIndices s).getLast?).map Prod.fst

/-- Line start according to the spec's words (spec.md section 4.7): the offset
immediately following the line-th newline character, or 0 if the line is 0.
This definition follows the specification, not the source, and exists only to
be compared against `get_byte_index_from_position`. -/
def specLineStart (s : List Char) (line : Nat) : Option Nat :=
  if line = 0 then some 0 else afterNthNewline s 0 line

/-- Position-to-offset translation according to the spec's words (spec.md
section 4.7): from the line start, advance `ch` Unicode scalars; if the
computed offset would pass the end of the document, clamp to the offset of the
last scalar.  This definition follows the specification, not the source. -/
def specByteIndex (s : List Char) (line ch : Nat) : Option Nat := do
  let start ← specLineStart s line
  let rest ← dropBytes s start
  if ch ≤ rest.length then pure (start + byteLen (rest.take ch))
  else lastScalarOffset s

/-- Newline count of a text. -/
def countNl (s : List Char) : Nat := (s.filter (fun c => c == '\n')).length

/-- C1: the translation does not implement the claimed rule.  At text
"ab\ncd" and position (line 0, character 0) the claimed rule yields offset 0
(line start 0 for line 0), but the source yields offset 4: for line 0 the
helper's final `current_line == line - 1` comparison underflows the `u32`,
the line start defaults to `s.len()`, and the clamp branch lands on the last
scalar.  The claim's particular instance (line 1, character 1) does map to
offset 4, in agreement with the rule. -/
theorem c1_position_offset_rule :
    get_byte_index_from_position ("ab\ncd".data) 0 0 = some 4 ∧
    specByteIndex ("ab\ncd".data) 0 0 = some 0 ∧
    get_byte_index_from_position ("ab\ncd".data) 1 1 = some 4 ∧
    specByteIndex ("ab\ncd".data) 1 1 = some 4 := by
  refine ⟨by decide, by decide, by decide, by decide⟩

/-- C2: in eager mode, after opening "file:///root/a.txt" under root "/root"
with text "hello" and applying the change with range (0,0)-(0,5) and text
"bye", the cached content is "hellbyeo", not "bye": both range endpoints
translate to byte offset 4 (the line-0 underflow of C1 forces the clamp), so
the edit inserts "bye" before the final "o".  The change does raise exactly
one reload signal, carrying "/a.txt". -/
theorem c2_eager_change_scenario :
    (did_change true ("/root".data) ("file:///root/a.txt".data)
        [⟨some ((0, 0), (0, 5)), "bye".data⟩]
        (did_open true ("/root".data) ("file:///root/a.txt".data) ("hello".data)
          (fun _ => none)).1).map
        (fun out => (out.1 ("file:///root/a.txt".data), out.2)) =
      some (some ("hellbyeo".data), ["/a.txt".data]) := by decide

/-- C3: `get_port` can return a port advertised in the snapshot.  With the
snapshot containing ("demo", "http://127.0.0.1:4002/") — the exact string
form `register` stores — base port 4001 and every local bind succeeding, the
loop returns 4002: the occupancy check compares against
"http://127.0.0.1:4002" without the trailing slash, so it never matches a
stored URL and is dead. -/
theorem c3_get_port_snapshot :
    get_port [("demo", registryUrlString 4002)] (fun _ => true) 4001 10 = some 4002 ∧
    registryUrlString 4002 = "http://127.0.0.1:4002/" := by
  refine ⟨by decide, by decide⟩

/-- C4 counterexample: registering a (name, url) pair identical to an entry
already present does not leave the registry unchanged — `register` performs
no duplicate check and appends a second copy. -/
theorem c4_register_dup_cex :
    (register true "a" "http://127.0.0.1:4001/"
        [("a", "http://127.0.0.1:4001/")]).1 ≠
      [("a", "http://127.0.0.1:4001/")] := by decide

/-- C4 amended: `register` is not idempotent.  Whenever the probe succeeds it
appends the (name, url) pair — also when an identical pair is already present,
so duplicates accumulate; when the probe fails the registry is unchanged. -/
theorem c4_register_append (name url : String) (servers : List (String × String)) :
    (register true name url servers).1 = servers ++ [(name, url)] ∧
    (register false name url servers).1 = servers := by
  constructor <;> simp [register]

/-- C6 counterexample: a non-success HTTP status does not yield false — any
received response makes `check_server` return true, because the source tests
only `send().is_ok()` and never inspects the status code. -/
theorem c6_check_server_status_cex :
    check_server (HttpOutcome.response 500) = true := rfl

/-- C6 amended: `check_server` is total — it always returns a boolean and
never raises an error.  It returns false exactly when the probe request fails
to complete (connection failure or timeout), and true whenever any HTTP
response is received, regardless of its status code. -/
theorem c6_check_server_total (o : HttpOutcome) :
    (check_server o = true ↔ o ≠ HttpOutcome.sendFailure) ∧
    check_server HttpOutcome.sendFailure = false := by
  cases o <;> simp [check_server]


/-- List containment negated, phrased for the `retain` predicate. -/
theorem containsNeg (l : List (String × String)) (v : String × String) :
    (!(l.contains v)) = true ↔ v ∉ l := by
  simp [List.contains]

/-- C5: one heartbeat cycle, with registry contents `snap ++ extra` at
reconciliation time (`extra` being the entries added after the snapshot was
taken), removes exactly the snapshotted entries whose probe failed: reachable
snapshot entries remain; failed snapshot entries are gone; an entry added
after the snapshot survives whenever its exact (name, url) pair differs from
every failed pair — sharing a name alone does not remove it; and the cycle
emits exactly one `added = false` event per failed snapshot entry, in order. -/
theorem c5_heartbeat_exact (ok : String → Bool) (snap extra : List (String × String)) :
    (∀ v, v ∈ snap → ok v.2 = true →
      v ∈ (heartbeat_cycle ok snap (snap ++ extra)).1) ∧
    (∀ v, v ∈ snap → ok v.2 = false →
      v ∉ (heartbeat_cycle ok snap (snap ++ extra)).1) ∧
    (∀ v, v ∈ extra → (∀ u, u ∈ snap → ok u.2 = false → u ≠ v) →
      v ∈ (heartbeat_cycle ok snap (snap ++ extra)).1) ∧
    (heartbeat_cycle ok snap (snap ++ extra)).2 =
      (snap.filter (fun v => !(ok v.2))).map (fun v => (⟨false, v.1, v.2⟩ : Sent)) := by
  refine ⟨?_, ?_, ?_, rfl⟩
  · intro v hv hok
    rw [heartbeat_cycle, List.mem_filter]
    refine ⟨List.mem_append_left _ hv, (containsNeg _ _).mpr ?_⟩
    intro hmem
    rw [List.mem_filter] at hmem
    rw [hok] at hmem
    simp at hmem
  · intro v hv hok hmem
    rw [heartbeat_cycle, List.mem_filter] at hmem
    rcases hmem with ⟨-, h2⟩
    rw [containsNeg] at h2
    exact h2 (List.mem_filter.mpr ⟨hv, by rw [hok]; rfl⟩)
  · intro v hv hne
    rw [heartbeat_cycle, List.mem_filter]
    refine ⟨List.mem_append_right _ hv, (containsNeg _ _).mpr ?_⟩
    intro hmem
    rw [List.mem_filter] at hmem
    rcases hmem with ⟨husnap, hfail⟩
    exact hne v husnap (by simpa using hfail) rfl

/-- C5 witness: registry snapshot with "A" reachable at "uA" and "B"
unreachable at "uB", and an entry ("B", "uB2") added after the snapshot that
shares the name "B".  After one cycle, "A" and the late ("B", "uB2") are
present, ("B", "uB") is absent, and exactly one removal event for ("B", "uB")
was emitted. -/
theorem c5_heartbeat_exact_witness :
    ("A", "uA") ∈ (heartbeat_cycle (fun url => url == "uA")
      [("A", "uA"), ("B", "uB")] ([("A", "uA"), ("B", "uB")] ++ [("B", "uB2")])).1 ∧
    ("B", "uB") ∉ (heartbeat_cycle (fun url => url == "uA")
      [("A", "uA"), ("B", "uB")] ([("A", "uA"), ("B", "uB")] ++ [("B", "uB2")])).1 ∧
    ("B", "uB2") ∈ (heartbeat_cycle (fun url => url == "uA")
      [("A", "uA"), ("B", "uB")] ([("A", "uA"), ("B", "uB")] ++ [("B", "uB2")])).1 ∧
    (heartbeat_cycle (fun url => url == "uA")
      [("A", "uA"), ("B", "uB")] ([("A", "uA"), ("B", "uB")] ++ [("B", "uB2")])).2 =
      [⟨false, "B", "uB"⟩] := by
  have h := c5_heartbeat_exact (fun url => url == "uA")
    [("A", "uA"), ("B", "uB")] [("B", "uB2")]
  exact ⟨h.1 _ (by decide) (by decide), h.2.1 _ (by decide) (by decide),
    h.2.2.1 _ (by decide) (by decide), h.2.2.2.trans (by decide)⟩

/-- C7: reload-signal dispatch is gated by the synchronization mode.  A save
always raises exactly one signal; an open raises one exactly in eager mode;
and a change, whenever the handler completes, raises one exactly in eager
mode — in lazy mode open and change produce no signal. -/
theorem c7_signal_gating (eager : Bool) (root uri text : List Char) (c : Cache)
    (changes : List TextChange) :
    did_save eager root uri = [relOf root uri] ∧
    (did_open eager root uri text c).2 = (if eager then [relOf root uri] else []) ∧
    (did_change eager root uri changes c).map Prod.snd =
      (did_change eager root uri changes c).map
        (fun _ => if eager then [relOf root uri] else []) := by
  refine ⟨?_, ?_, ?_⟩
  · cases eager <;> rfl
  · cases eager <;> rfl
  · rcases h : c uri with _ | file <;> cases eager <;>
      simp [did_change, h, call_custom_function, Option.map_map, Function.comp] <;>
      congr 1


/-- The char-indices view preserves the newline count, whatever the starting
byte offset. -/
theorem charIndicesFrom_nl (s : List Char) : ∀ i,
    ((charIndicesFrom i s).filter (fun p => p.2 == '\n')).length = countNl s := by
  induction s with
  | nil => intro i; rfl
  | cons c cs ih =>
      intro i
      simp only [charIndicesFrom, countNl, List.filter_cons]
      cases h : (c == '\n') <;> simp [h, ih (i + c.utf8Size), countNl]

/-- For requested line 0 the scan loop never returns: the early return fires
only after incrementing the line counter, so it requires the counter to wrap
all the way around, and the final comparison is against `0 - 1` on `u32`,
which is `2^32 - 1`.  Any realistic newline count therefore yields `none`. -/
theorem iofl_zero (l : List (Nat × Char)) : ∀ cl idx,
    cl + (l.filter (fun p => p.2 == '\n')).length < 4294967295 →
    iofl 0 l cl idx = none := by
  induction l with
  | nil =>
      intro cl idx h
      simp only [List.filter_nil, List.length_nil, Nat.add_zero] at h
      have hne : cl ≠ wrap32 (0 + 4294967295) := by
        simp only [wrap32, u32Mod, Nat.zero_add]
        omega
      simp only [iofl, if_neg hne]
  | cons p rest ih =>
      rcases p with ⟨i, c⟩
      intro cl idx h
      cases hc : (c == '\n') with
      | false =>
          simp only [iofl, hc, Bool.false_eq_true, if_false]
          apply ih
          simp only [List.filter_cons, hc, if_false] at h
          exact h
      | true =>
          simp only [List.filter_cons, hc, if_true, List.length_cons] at h
          have hcl : cl + 1 < 4294967296 := by omega
          have hw : wrap32 (cl + 1) = cl + 1 := by
            simp only [wrap32, u32Mod]
            omega
          have hne : wrap32 (cl + 1) ≠ 0 := by omega
          simp only [iofl, hc, if_true, if_neg hne, hw]
          apply ih
          omega

/-- C8: the position-to-offset translation is not total.  For the empty
document every position makes `get_byte_index_from_position` panic: the
clamp branch evaluates `s.len() - 1` with `s.len() = 0` (wrapping to
`usize::MAX`) and unwraps the missing scalar at that index.  And for every
position with line 0 the helper evaluates `line - 1` on an unsigned zero, so
(with the wrap made explicit) it returns `None` for any document with fewer
than `2^32 - 1` newlines — line 0 never resolves to the start of the text. -/
theorem c8_translation_not_total :
    (∀ line ch, get_byte_index_from_position ("".data) line ch = none) ∧
    (∀ s : List Char, countNl s < 4294967295 →
      index_of_first_char_in_line s 0 = none) := by
  constructor
  · intro line ch
    show get_byte_index_from_position [] line ch = none
    by_cases h : (0 : Nat) = wrap32 (line + 4294967295) <;>
      simp [get_byte_index_from_position, index_of_first_char_in_line, charIndices,
        charIndicesFrom, iofl, h, byteLen, nthOpt]
  · intro s h
    unfold index_of_first_char_in_line
    apply iofl_zero
    rw [charIndices, charIndicesFrom_nl]
    simpa [countNl] using h

/-- C8 witness: the empty document panics at position (3, 7), and the text
"ab" has a realistic newline count with no line-0 resolution. -/
theorem c8_translation_not_total_witness :
    get_byte_index_from_position ("".data) 3 7 = none ∧
    (countNl ("ab".data) < 4294967295 ∧
      index_of_first_char_in_line ("ab".data) 0 = none) :=
  ⟨c8_translation_not_total.1 3 7, by decide,
    c8_translation_not_total.2 ("ab".data) (by decide)⟩

/-- C9: every `execute_command` request with an unknown command name, a
missing (or non-string) first argument, or an argument naming no known
workspace root is answered with an error — `method_not_found` for the unknown
command, `invalid_params` for the malformed argument cases — and the
workspace table is returned unchanged in every such case. -/
theorem c9_execute_command_errors (arg : Option String) (wss : List String)
    (browserOk : Bool) :
    (∀ cmd, cmd ≠ "openProjectsWeb" →
      execute_command cmd arg wss browserOk =
        (wss, Except.error RpcError.methodNotFound)) ∧
    (execute_command "openProjectsWeb" none wss browserOk =
      (wss, Except.error (RpcError.invalidParams "URL argument missing"))) ∧
    (∀ project, wss.contains project = false →
      execute_command "openProjectsWeb" (some project) wss browserOk =
        (wss, Except.error (RpcError.invalidParams "URL argument invalid"))) := by
  refine ⟨?_, rfl, ?_⟩
  · intro cmd hne
    simp [execute_command, hne]
  · intro project hnp
    have hnm : project ∉ wss := by
      simp [List.contains] at hnp
      exact hnp
    simp [execute_command, hnp, hnm]

/-- C9 witness: an unknown command, a missing argument, and an argument
naming no workspace, each answered with the error and the table unchanged. -/
theorem c9_execute_command_errors_witness :
    execute_command "bogus" none [] true =
      ([], Except.error RpcError.methodNotFound) ∧
    execute_command "openProjectsWeb" none [] true =
      ([], Except.error (RpcError.invalidParams "URL argument missing")) ∧
    execute_command "openProjectsWeb" (some "/nope") [] true =
      ([], Except.error (RpcError.invalidParams "URL argument invalid")) :=
  ⟨(c9_execute_command_errors none [] true).1 "bogus" (by decide),
    (c9_execute_command_errors none [] true).2.1,
    (c9_execute_command_errors (some "/nope") [] true).2.2 "/nope" (by decide)⟩

/-- The close walk leaves untouched every leading workspace whose root does
not match the URI. -/
theorem closeGo_skip (uri : List Char) (pre : List (List Char × Cache)) :
    (∀ p, p ∈ pre → wsMatches p.1 uri = false) →
    ∀ rest, closeGo uri (pre ++ rest) = pre ++ closeGo uri rest := by
  induction pre with
  | nil => intro _ rest; rfl
  | cons p ps ih =>
      intro h rest
      rcases p with ⟨root, c⟩
      have hp : wsMatches root uri = false := h (root, c) (List.mem_cons_self _ _)
      simp only [List.cons_append, closeGo, hp, Bool.false_eq_true, if_false]
      exact congrArg (List.cons (root, c)) (ih (fun q hq => h q (List.mem_cons_of_mem _ hq)) rest)

/-- C10: `did_close` raises no reload signal, and on the routed workspace —
the first one whose root matches the URI — it removes exactly the cache entry
for that URI: the entry is gone, every other cache entry of that workspace is
unchanged, every other workspace is untouched, and when no workspace matches
nothing changes at all. -/
theorem c10_did_close_frame (uri : List Char) (pre post : List (List Char × Cache))
    (root : List Char) (c : Cache) :
    ((∀ p, p ∈ pre → wsMatches p.1 uri = false) → wsMatches root uri = true →
      did_close uri (pre ++ (root, c) :: post) =
        (pre ++ (root, eraseC uri c) :: post, [])) ∧
    eraseC uri c uri = none ∧
    (∀ x, x ≠ uri → eraseC uri c x = c x) ∧
    ((∀ p, p ∈ pre → wsMatches p.1 uri = false) → did_close uri pre = (pre, [])) := by
  refine ⟨?_, ?_, ?_, ?_⟩
  · intro h1 h2
    unfold did_close
    rw [closeGo_skip uri pre h1 ((root, c) :: post)]
    simp only [closeGo, h2, if_true]
  · simp [eraseC]
  · intro x hx
    simp [eraseC, hx]
  · intro h1
    unfold did_close
    have hgo := closeGo_skip uri pre h1 []
    simp only [closeGo, List.append_nil] at hgo
    rw [hgo]

/-- C10 witness: closing "file:///root/a.txt" with a non-matching workspace
"/other" listed before the matching root "/root" erases only that URI from
the matching workspace's cache, leaves the other workspace untouched, raises
no signal, and leaves a different URI's (absent) entry as it was. -/
theorem c10_did_close_frame_witness :
    did_close ("file:///root/a.txt".data)
        (([(("/other".data), (fun _ => none))] : List (List Char × Cache)) ++
          (("/root".data), (fun _ => none : Cache)) :: []) =
      (([(("/other".data), (fun _ => none))] : List (List Char × Cache)) ++
        (("/root".data), eraseC ("file:///root/a.txt".data) (fun _ => none)) :: [], []) ∧
    eraseC ("file:///root/a.txt".data) (fun _ => none : Cache) ("file:///root/a.txt".data) =
      none ∧
    eraseC ("file:///root/a.txt".data) (fun _ => none : Cache) ("file:///root/b.txt".data) =
      (fun _ => none : Cache) ("file:///root/b.txt".data) := by
  have h := c10_did_close_frame ("file:///root/a.txt".data)
    [(("/other".data), (fun _ => none : Cache))] []
    ("/root".data) (fun _ => none : Cache)
  exact ⟨h.1 (by intro p hp; fin_cases hp <;> decide) (by decide),
    h.2.1, h.2.2.1 _ (by decide)⟩
